import Mathlib

/-!
Verification development for the image post-processing core of the
AgentForge asset scripts: RGB to HSV conversion, per-pixel background
classification, alpha compositing, chroma keying, the background-removal
pipelines and grid based sprite-sheet slicing.  The definitions are a
shallow embedding of scripts/cleanup_assets.py, scripts/finalize_assets.py,
scripts/process_sprites.py, scripts/generate_ui_assets.py and
scripts/generate_isometric_assets.py: exact rationals stand for Python
floats, naturals for unsigned bytes, and the uint8 casts and wraparounds
of the numpy code are made explicit with mod 256 and floor operations.
-/

namespace AgentForge

open Classical

/-- An RGBA pixel: four 8-bit channels, modelled as naturals. -/
structure Pixel where
  r : ℕ
  g : ℕ
  b : ℕ
  a : ℕ
deriving DecidableEq

/-- An HSV triple (hue, saturation, value) as exact rationals. -/
structure Hsv where
  h : ℚ
  s : ℚ
  v : ℚ
deriving DecidableEq

/-- Python float modulo for a positive modulus: x % m = x - m * floor (x / m). -/
def pyMod (x m : ℚ) : ℚ := x - m * ⌊x / m⌋

/-- RGB (0-255) to HSV (0-360, 0-1, 0-1), from rgb_to_hsv in
scripts/cleanup_assets.py; the copy in scripts/generate_ui_assets.py is
line for line the same computation. -/
def rgbToHsv (r g b : ℕ) : Hsv :=
  let r' : ℚ := (r : ℚ) / 255
  let g' : ℚ := (g : ℚ) / 255
  let b' : ℚ := (b : ℚ) / 255
  let maxC := max r' (max g' b')
  let minC := min r' (min g' b')
  let diff := maxC - minC
  let v := maxC
  let s : ℚ := if maxC = 0 then 0 else diff / maxC
  let h : ℚ :=
    if diff = 0 then 0
    else if maxC = r' then 60 * pyMod ((g' - b') / diff) 6
    else if maxC = g' then 60 * ((b' - r') / diff + 2)
    else 60 * ((r' - g') / diff + 4)
  ⟨h, s, v⟩

/-- Pixel classification from should_remove_pixel in
scripts/cleanup_assets.py: near-black (all channels at most 20), then
near-white (all channels at least 240), then the green hue band
(80..160) and the blue hue band (180..260), each requiring saturation
and value at least 0.2, with confidence min 1 (s / 0.5); the result is
the pair (should_remove, confidence). -/
def shouldRemovePixel (r g b : ℕ) : Bool × ℚ :=
  if r ≤ 20 ∧ g ≤ 20 ∧ b ≤ 20 then (true, 1)
  else if 240 ≤ r ∧ 240 ≤ g ∧ 240 ≤ b then (true, 1)
  else
    let c := rgbToHsv r g b
    if 80 ≤ c.h ∧ c.h ≤ 160 ∧ 1/5 ≤ c.s ∧ 1/5 ≤ c.v then (true, min 1 (c.s / (1/2)))
    else if 180 ≤ c.h ∧ c.h ≤ 260 ∧ 1/5 ≤ c.s ∧ 1/5 ≤ c.v then (true, min 1 (c.s / (1/2)))
    else (false, 0)

/-- Boolean pixel classification from should_remove_pixel in
scripts/generate_ui_assets.py: same rule order as the cleanup script but
with minimum saturation 0.25 and no confidence output. -/
def uiShouldRemovePixel (r g b : ℕ) : Bool :=
  if r ≤ 20 ∧ g ≤ 20 ∧ b ≤ 20 then true
  else if 240 ≤ r ∧ 240 ≤ g ∧ 240 ≤ b then true
  else
    let c := rgbToHsv r g b
    if 80 ≤ c.h ∧ c.h ≤ 160 ∧ 1/4 ≤ c.s ∧ 1/5 ≤ c.v then true
    else if 180 ≤ c.h ∧ c.h ≤ 260 ∧ 1/4 ≤ c.s ∧ 1/5 ≤ c.v then true
    else false

/-- Per-pixel alpha compositing from remove_background in
scripts/cleanup_assets.py: an already transparent pixel short-circuits to
0; otherwise the new alpha fraction is (1 - confidence) * (a / 255) for a
removed pixel and a / 255 for a kept pixel, and the final byte is the
fraction scaled by 255 and cast with astype(uint8), which truncates; for
the nonnegative values produced here the truncation is the floor. -/
def composite (a : ℕ) (shouldRemove : Bool) (conf : ℚ) : ℤ :=
  if a = 0 then 0
  else
    let newAlpha : ℚ := if shouldRemove then (1 - conf) * ((a : ℚ) / 255) else (a : ℚ) / 255
    ⌊newAlpha * 255⌋

/-- Compositing formula literally as the spec writes it in section 4.3:
round ((1 - confidence) * (sourceAlpha / 255)) * 255, with round the
usual round-half-up on rationals. -/
def specCompositeAlpha (a : ℕ) (conf : ℚ) : ℤ :=
  round ((1 - conf) * ((a : ℚ) / 255)) * 255

/-- Wrapping subtraction of two bytes, as numpy performs it on uint8
arrays: the difference is taken modulo 256. -/
def u8sub (x y : ℕ) : ℕ := (((x : ℤ) - (y : ℤ)) % 256).toNat

/-- Squared chroma distance as remove_background_chroma in
scripts/finalize_assets.py computes it: the channels come from the
transposed uint8 array, so each per-channel difference, each square and
each partial sum is taken modulo 256. -/
def finalizeDistSq (p : Pixel) (kr kg kb : ℕ) : ℕ :=
  let dr := u8sub p.r kr
  let dg := u8sub p.g kg
  let db := u8sub p.b kb
  ((dr * dr % 256 + dg * dg % 256) % 256 + db * db % 256) % 256

/-- Chroma distance of scripts/finalize_assets.py: the square root numpy
takes of the wrapped squared distance. -/
noncomputable def finalizeDist (p : Pixel) (kr kg kb : ℕ) : ℝ :=
  Real.sqrt ((finalizeDistSq p kr kg kb : ℕ) : ℝ)

/-- Output alpha of remove_background_chroma in
scripts/finalize_assets.py: np.where (dist > tolerance, 255, 0); the
source alpha channel is not consulted. -/
noncomputable def finalizeAlpha (p : Pixel) (kr kg kb : ℕ) (tol : ℝ) : ℕ :=
  if tol < finalizeDist p kr kg kb then 255 else 0

/-- Exact squared Euclidean RGB distance, as remove_background_chroma in
scripts/process_sprites.py computes it after widening the channels to
int32. -/
def exactDistSq (p : Pixel) (kr kg kb : ℕ) : ℤ :=
  ((p.r : ℤ) - (kr : ℤ)) ^ 2 + ((p.g : ℤ) - (kg : ℤ)) ^ 2 + ((p.b : ℤ) - (kb : ℤ)) ^ 2

/-- Exact Euclidean RGB distance of scripts/process_sprites.py. -/
noncomputable def spritesDist (p : Pixel) (kr kg kb : ℕ) : ℝ :=
  Real.sqrt ((exactDistSq p kr kg kb : ℤ) : ℝ)

/-- Output alpha of remove_background_chroma in
scripts/process_sprites.py before the uint8 cast: 255 by default, 0 when
the distance is below the tolerance, and the linear fade
(dist - tolerance) / fade * 255 on the fade band when fade is positive;
the source alpha channel is not consulted. -/
noncomputable def spritesAlphaReal (p : Pixel) (kr kg kb : ℕ) (tol fade : ℝ) : ℝ :=
  if spritesDist p kr kg kb < tol then 0
  else if 0 < fade ∧ tol ≤ spritesDist p kr kg kb ∧ spritesDist p kr kg kb < tol + fade then
    (spritesDist p kr kg kb - tol) / fade * 255
  else 255

/-- Output alpha byte of scripts/process_sprites.py: the astype(uint8)
cast truncates, which on the nonnegative alpha values is the floor. -/
noncomputable def spritesAlpha (p : Pixel) (kr kg kb : ℕ) (tol fade : ℝ) : ℤ :=
  ⌊spritesAlphaReal p kr kg kb tol fade⌋

/-- An image: a fixed-size two-dimensional pixel buffer; pix x y reads
column x of row y. -/
structure Image where
  width : ℕ
  height : ℕ
  pix : ℕ → ℕ → Pixel

/-- PIL Image.crop with box (left, top, right, bottom): a pure read of
the source producing a (right - left) by (bottom - top) image whose
pixel (x, y) is the source pixel (left + x, top + y). -/
def crop (img : Image) (left top right bottom : ℕ) : Image :=
  { width := right - left
    height := bottom - top
    pix := fun x y => img.pix (left + x) (top + y) }

/-- Grid slicing from process_sprite_sheet in scripts/process_sprites.py:
cell sizes are the integer divisions width // cols and height // rows,
and the frames are cropped in row-major order (the row loop outside, the
column loop inside); there is no divisibility check. -/
def sliceGrid (img : Image) (rows cols : ℕ) : List Image :=
  let cellW := img.width / cols
  let cellH := img.height / rows
  (List.range rows).flatMap fun r =>
    (List.range cols).map fun c =>
      crop img (c * cellW) (r * cellH) (c * cellW + cellW) (r * cellH + cellH)

/-- Failure modes of the slicer described by the spec. -/
inductive SliceError where
  | shapeMismatch
deriving DecidableEq

/-- Slicer contract as section 4.5 of the spec words it: validate that
cols divides the width and rows divides the height and report a
ShapeMismatch error otherwise.  This definition follows the spec text and
exists to be compared with sliceGrid, the slicer the code implements. -/
def specSlice (img : Image) (rows cols : ℕ) : Except SliceError (List Image) :=
  if img.width % cols = 0 ∧ img.height % rows = 0 then .ok (sliceGrid img rows cols)
  else .error .shapeMismatch

/-- Failure of the external segmentation strategy, opaque to the core. -/
inductive SegError where
  | unavailable
deriving DecidableEq

/-- Chroma-key fallback of scripts/generate_isometric_assets.py
(remove_background_chroma): pixels that are already transparent are
skipped, and an opaque pixel with green at least green_threshold and red
and blue at most other_threshold is replaced by (0, 0, 0, 0). -/
def isoChroma (img : Image) (gThresh oThresh : ℕ) : Image :=
  { img with
    pix := fun x y =>
      let p := img.pix x y
      if p.a = 0 then p
      else if gThresh ≤ p.g ∧ p.r ≤ oThresh ∧ p.b ≤ oThresh then ⟨0, 0, 0, 0⟩
      else p }

/-- Background removal pipeline of scripts/generate_isometric_assets.py:
when rembg is importable the external hook runs inside a try block and
any failure falls back to the chroma key with thresholds 180 and 120;
when rembg is unavailable the chroma key runs directly.  The hook
argument captures the outcome of the external rembg call on the image. -/
def isoRemoveBackground (hasRembg : Bool) (hook : Image → Except SegError Image)
    (img : Image) : Image :=
  if hasRembg then
    match hook img with
    | .ok res => res
    | .error _ => isoChroma img 180 120
  else isoChroma img 180 120

/-- Chroma fallback of remove_background in
scripts/generate_ui_assets.py: every pixel the HSV heuristic classifies
as background keeps its color but gets alpha 0, all other pixels are
unchanged. -/
def uiChromaImage (img : Image) : Image :=
  { img with
    pix := fun x y =>
      let p := img.pix x y
      if uiShouldRemovePixel p.r p.g p.b then ⟨p.r, p.g, p.b, 0⟩ else p }

/-- Background removal pipeline of scripts/generate_ui_assets.py: when
rembg is importable the external hook is called with no surrounding try
block, so a failing hook propagates its error to the caller; the chroma
fallback runs only when rembg is unavailable. -/
def uiRemoveBackground (hasRembg : Bool) (hook : Image → Except SegError Image)
    (img : Image) : Except SegError Image :=
  if hasRembg then hook img
  else .ok (uiChromaImage img)

/-- Demonstration image for the slicer claims: 192 by 96, with a pixel
pattern that records the source coordinates. -/
def demo192 : Image :=
  { width := 192, height := 96, pix := fun x y => ⟨x % 256, y % 256, 0, 255⟩ }

/-- Demonstration image whose width 100 is not divisible by 3. -/
def demo100 : Image :=
  { width := 100, height := 96, pix := fun _ _ => ⟨1, 2, 3, 255⟩ }

/-- Demonstration image for the pipeline claims. -/
def demoImg : Image :=
  { width := 2, height := 1, pix := fun _ _ => ⟨10, 220, 40, 255⟩ }

/-- An external segmentation hook that always fails. -/
def failingHook : Image → Except SegError Image := fun _ => .error .unavailable

section Theorems

/-- Values of the Python float modulo are nonnegative for a positive
modulus. -/
lemma pyMod_nonneg (x m : ℚ) (hm : 0 < m) : 0 ≤ pyMod x m := by
  have h := Int.floor_le (x / m)
  have : m * (⌊x / m⌋ : ℚ) ≤ m * (x / m) := by
    exact mul_le_mul_of_nonneg_left h hm.le
  rw [mul_div_cancel₀ x hm.ne'] at this
  unfold pyMod
  linarith

/-- Values of the Python float modulo are below a positive modulus. -/
lemma pyMod_lt (x m : ℚ) (hm : 0 < m) : pyMod x m < m := by
  have h := Int.lt_floor_add_one (x / m)
  have : m * (x / m) < m * ((⌊x / m⌋ : ℚ) + 1) := by
    exact mul_lt_mul_of_pos_left h hm
  rw [mul_div_cancel₀ x hm.ne'] at this
  unfold pyMod
  nlinarith

/-- The wrapped squared distance of the finalize script is an
unsigned byte. -/
lemma finalizeDistSq_lt (p : Pixel) (kr kg kb : ℕ) : finalizeDistSq p kr kg kb < 256 :=
  Nat.mod_lt _ (by norm_num)

/-- With any tolerance of at least 16 the finalize chroma key classifies
every pixel as background, because the wrapped squared distance is at
most 255 and its square root below 16. -/
lemma finalizeAlpha_eq_zero (p : Pixel) (kr kg kb : ℕ) (tol : ℝ) (h : 16 ≤ tol) :
    finalizeAlpha p kr kg kb tol = 0 := by
  unfold finalizeAlpha
  rw [if_neg]
  push_neg
  have hlt : finalizeDist p kr kg kb < 16 := by
    unfold finalizeDist
    rw [Real.sqrt_lt' (by norm_num : (0:ℝ) < 16)]
    have := finalizeDistSq_lt p kr kg kb
    have hc : ((finalizeDistSq p kr kg kb : ℕ) : ℝ) < 256 := by exact_mod_cast this
    nlinarith
  linarith

/-- Length of a row-major grid of frames. -/
lemma gridFlat_length {α : Type} (cols : ℕ) (g : ℕ → ℕ → α) (rows : ℕ) :
    ((List.range rows).flatMap fun r => (List.range cols).map (g r)).length = rows * cols := by
  induction rows with
  | zero => simp
  | succ n ih =>
    rw [List.range_succ, List.flatMap_append, List.length_append, ih]
    simp [Nat.succ_mul]

/-- Entry r * cols + c of a row-major grid of frames is the frame of
grid cell (r, c). -/
lemma gridFlat_getElem {α : Type} (cols : ℕ) (g : ℕ → ℕ → α) (rows r c : ℕ)
    (hr : r < rows) (hc : c < cols) :
    ((List.range rows).flatMap fun r => (List.range cols).map (g r))[r * cols + c]? =
      some (g r c) := by
  induction rows with
  | zero => omega
  | succ n ih =>
    rw [List.range_succ, List.flatMap_append]
    rcases Nat.lt_or_ge r n with h | h
    · rw [List.getElem?_append_left, ih h]
      rw [gridFlat_length]
      calc r * cols + c < r * cols + cols := by omega
        _ = (r + 1) * cols := by ring
        _ ≤ n * cols := Nat.mul_le_mul_right _ h
    · have hrn : r = n := by omega
      subst hrn
      rw [List.getElem?_append_right (by rw [gridFlat_length]; exact Nat.le_add_right _ _)]
      rw [gridFlat_length, Nat.add_sub_cancel_left]
      simp [List.getElem?_map, List.getElem?_range hc]

/-- Square roots of concrete perfect squares of naturals. -/
lemma sqrt_of_sq (n m : ℕ) (h : m * m = n) : Real.sqrt ((n : ℕ) : ℝ) = (m : ℕ) := by
  have : ((n : ℕ) : ℝ) = ((m : ℕ) : ℝ) ^ 2 := by
    push_cast [← h]
    ring
  rw [this, Real.sqrt_sq (by positivity)]

/-- Claim C1.  The spec writes the compositing formula as
round ((1 - confidence) * (sourceAlpha / 255)) * 255, which can only
produce a multiple of 255; the code instead scales the fraction by 255
first and truncates.  At source alpha 255 and confidence 1/2 the code
produces 127 while the spec formula produces 255. -/
theorem c1_counterexample :
    composite 255 true (1/2) = 127 ∧ specCompositeAlpha 255 (1/2) = 255 ∧ (127 : ℤ) ≠ 255 := by
  refine ⟨?_, ?_, by norm_num⟩
  · norm_num [composite]
  · norm_num [specCompositeAlpha, round_eq]

/-- Claim C1, amended.  For confidence c in [0, 1] the compositor of
scripts/cleanup_assets.py outputs the truncation of (1 - c) * sourceAlpha
(the rounding is a floor applied after the scaling by 255, not the spec's
round before it); the endpoints behave as the claim states: confidence 1
forces alpha 0 and confidence 0 keeps the source alpha unchanged. -/
theorem c1_amended (a : ℕ) (c : ℚ) (h0 : 0 ≤ c) (h1 : c ≤ 1) :
    composite a true c = ⌊(1 - c) * (a : ℚ)⌋ ∧
    composite a true 1 = 0 ∧
    composite a true 0 = (a : ℤ) := by
  unfold composite
  rcases eq_or_ne a 0 with h | h
  · subst h
    norm_num
  · rw [if_neg h, if_neg h, if_neg h]
    have key : ∀ d : ℚ, (1 - d) * ((a : ℚ) / 255) * 255 = (1 - d) * (a : ℚ) := by
      intro d
      field_simp
    refine ⟨?_, ?_, ?_⟩
    · simp only [if_true]
      rw [key c]
    · simp only [if_true]
      rw [key 1]
      norm_num
    · simp only [if_true]
      rw [key 0]
      norm_num

/-- Witness for c1_amended at source alpha 200 and confidence 1/2. -/
theorem c1_witness :
    (0 : ℚ) ≤ 1/2 ∧ (1/2 : ℚ) ≤ 1 ∧
      (composite 200 true (1/2) = ⌊(1 - (1/2 : ℚ)) * ((200 : ℕ) : ℚ)⌋ ∧
        composite 200 true 1 = 0 ∧
        composite 200 true 0 = ((200 : ℕ) : ℤ)) :=
  ⟨by norm_num, by norm_num, c1_amended 200 (1/2) (by norm_num) (by norm_num)⟩

/-- Claim C8.  For one source alpha and two well-formed classification
results (a pixel not classified background always carries confidence 0,
as the classifiers guarantee) with confidences c1 < c2 in [0, 1], the
composited output alpha at the higher confidence is at most the output
alpha at the lower confidence. -/
theorem c8_composite_monotone (a : ℕ) (b1 b2 : Bool) (c1 c2 : ℚ)
    (hc1 : 0 ≤ c1) (h12 : c1 < c2) (hc2 : c2 ≤ 1)
    (hw1 : b1 = false → c1 = 0) (hw2 : b2 = false → c2 = 0) :
    composite a b2 c2 ≤ composite a b1 c1 := by
  unfold composite
  rcases eq_or_ne a 0 with h | h
  · simp [h]
  · rw [if_neg h, if_neg h]
    have hb2 : b2 = true := by
      cases b2 with
      | false => exact absurd (hw2 rfl) (by linarith)
      | true => rfl
    subst hb2
    have hX : (0 : ℚ) ≤ (a : ℚ) / 255 := by positivity
    cases b1 with
    | false =>
      have hc1z : c1 = 0 := hw1 rfl
      simp only [if_true, Bool.false_eq_true, if_false]
      apply Int.floor_le_floor
      nlinarith
    | true =>
      simp only [if_true]
      apply Int.floor_le_floor
      nlinarith

/-- Witness for c8_composite_monotone: alpha 100, both pixels classified
background, confidences 0 and 1. -/
theorem c8_witness : composite 100 true 1 ≤ composite 100 true 0 :=
  c8_composite_monotone 100 true true 0 1 (by norm_num) (by norm_num) (by norm_num)
    (fun h => rfl) (fun h => nomatch h)

/-- Claim C4.  The HSV heuristic classifier evaluates near-black,
near-white and the hue bands in that order and only the first matching
rule applies: any pixel with all channels at most 20 classifies as
background with confidence 1 (in particular (10, 10, 10), and also under
the boolean classifier of the UI script); a pixel matching neither
near-black nor near-white whose hue lies in the green band 80..160 or
the blue band 180..260 with saturation and value at least 0.2 gets
confidence min 1 (s / 0.5); any other pixel gets (false, 0). -/
theorem c4_hsv_rule_order :
    (∀ r g b : ℕ, r ≤ 20 → g ≤ 20 → b ≤ 20 → shouldRemovePixel r g b = (true, 1)) ∧
    shouldRemovePixel 10 10 10 = (true, 1) ∧
    (∀ r g b : ℕ, ¬(r ≤ 20 ∧ g ≤ 20 ∧ b ≤ 20) → ¬(240 ≤ r ∧ 240 ≤ g ∧ 240 ≤ b) →
      (80 ≤ (rgbToHsv r g b).h ∧ (rgbToHsv r g b).h ≤ 160 ∨
        180 ≤ (rgbToHsv r g b).h ∧ (rgbToHsv r g b).h ≤ 260) →
      1/5 ≤ (rgbToHsv r g b).s → 1/5 ≤ (rgbToHsv r g b).v →
      shouldRemovePixel r g b = (true, min 1 ((rgbToHsv r g b).s / (1/2)))) ∧
    (∀ r g b : ℕ, ¬(r ≤ 20 ∧ g ≤ 20 ∧ b ≤ 20) → ¬(240 ≤ r ∧ 240 ≤ g ∧ 240 ≤ b) →
      ¬(80 ≤ (rgbToHsv r g b).h ∧ (rgbToHsv r g b).h ≤ 160 ∧
          1/5 ≤ (rgbToHsv r g b).s ∧ 1/5 ≤ (rgbToHsv r g b).v) →
      ¬(180 ≤ (rgbToHsv r g b).h ∧ (rgbToHsv r g b).h ≤ 260 ∧
          1/5 ≤ (rgbToHsv r g b).s ∧ 1/5 ≤ (rgbToHsv r g b).v) →
      shouldRemovePixel r g b = (false, 0)) ∧
    (∀ r g b : ℕ, r ≤ 20 → g ≤ 20 → b ≤ 20 → uiShouldRemovePixel r g b = true) := by
  have black : ∀ r g b : ℕ, r ≤ 20 → g ≤ 20 → b ≤ 20 →
      shouldRemovePixel r g b = (true, 1) := by
    intro r g b hr hg hb
    simp only [shouldRemovePixel]
    rw [if_pos ⟨hr, hg, hb⟩]
  refine ⟨black, black 10 10 10 (by norm_num) (by norm_num) (by norm_num), ?_, ?_, ?_⟩
  · intro r g b h1 h2 hband hs hv
    simp only [shouldRemovePixel]
    rw [if_neg h1, if_neg h2]
    rcases hband with hg' | hb'
    · rw [if_pos ⟨hg'.1, hg'.2, hs, hv⟩]
    · rw [if_neg (by rintro ⟨ha, hc, -, -⟩; linarith [hb'.1]),
        if_pos ⟨hb'.1, hb'.2, hs, hv⟩]
  · intro r g b h1 h2 h3 h4
    simp only [shouldRemovePixel]
    rw [if_neg h1, if_neg h2, if_neg h3, if_neg h4]
  · intro r g b hr hg hb
    simp only [uiShouldRemovePixel]
    rw [if_pos ⟨hr, hg, hb⟩]

/-- Witness for c4_hsv_rule_order: a near-black pixel, a pure green
pixel landing in the green hue band with full saturation, a plain gray
pixel matching no rule, and a near-black pixel under the UI classifier. -/
theorem c4_witness :
    shouldRemovePixel 15 15 15 = (true, 1) ∧
    shouldRemovePixel 0 255 0 = (true, min 1 ((rgbToHsv 0 255 0).s / (1/2))) ∧
    shouldRemovePixel 128 128 128 = (false, 0) ∧
    uiShouldRemovePixel 10 10 10 = true := by
  refine ⟨c4_hsv_rule_order.1 15 15 15 (by norm_num) (by norm_num) (by norm_num), ?_, ?_,
    c4_hsv_rule_order.2.2.2.2 10 10 10 (by norm_num) (by norm_num) (by norm_num)⟩
  · exact c4_hsv_rule_order.2.2.1 0 255 0 (by norm_num) (by norm_num)
      (Or.inl (by constructor <;> norm_num [rgbToHsv, pyMod]))
      (by norm_num [rgbToHsv]) (by norm_num [rgbToHsv])
  · exact c4_hsv_rule_order.2.2.2.1 128 128 128 (by norm_num) (by norm_num)
      (by norm_num [rgbToHsv]) (by norm_num [rgbToHsv])

/-- Range analysis for the body of rgb_to_hsv, stated over the scaled
channel values. -/
lemma hsv_bounds_core (r' g' b' M m diff s h : ℚ)
    (hM : M = max r' (max g' b')) (hm : m = min r' (min g' b'))
    (hdiff : diff = M - m)
    (hs : s = if M = 0 then 0 else diff / M)
    (hh : h = if diff = 0 then 0
      else if M = r' then 60 * pyMod ((g' - b') / diff) 6
      else if M = g' then 60 * ((b' - r') / diff + 2)
      else 60 * ((r' - g') / diff + 4))
    (h0r : 0 ≤ r') (h1r : r' ≤ 1) (h0g : 0 ≤ g') (h1g : g' ≤ 1)
    (h0b : 0 ≤ b') (h1b : b' ≤ 1) :
    0 ≤ h ∧ h < 360 ∧ 0 ≤ s ∧ s ≤ 1 ∧ 0 ≤ M ∧ M ≤ 1 ∧ (M = m → h = 0 ∧ s = 0) := by
  have hrM : r' ≤ M := hM ▸ le_max_left _ _
  have hgM : g' ≤ M := hM ▸ le_trans (le_max_left _ _) (le_max_right _ _)
  have hbM : b' ≤ M := hM ▸ le_trans (le_max_right _ _) (le_max_right _ _)
  have hmr : m ≤ r' := hm ▸ min_le_left _ _
  have hmg : m ≤ g' := hm ▸ le_trans (min_le_right _ _) (min_le_left _ _)
  have hmb : m ≤ b' := hm ▸ le_trans (min_le_right _ _) (min_le_right _ _)
  have hM0 : 0 ≤ M := le_trans h0r hrM
  have hM1 : M ≤ 1 := hM ▸ max_le h1r (max_le h1g h1b)
  have hm0 : 0 ≤ m := hm ▸ le_min h0r (le_min h0g h0b)
  have hdiff0 : 0 ≤ diff := by rw [hdiff]; linarith
  have hdiffM : diff ≤ M := by rw [hdiff]; linarith
  have hhb : 0 ≤ h ∧ h < 360 := by
    rw [hh]
    split_ifs with hz hr1 hg1
    · norm_num
    · have hdpos : 0 < diff := lt_of_le_of_ne hdiff0 (Ne.symm hz)
      have hp0 := pyMod_nonneg ((g' - b') / diff) 6 (by norm_num)
      have hp1 := pyMod_lt ((g' - b') / diff) 6 (by norm_num)
      constructor <;> linarith
    · have hdpos : 0 < diff := lt_of_le_of_ne hdiff0 (Ne.symm hz)
      have hql : -1 ≤ (b' - r') / diff := by
        rw [le_div_iff₀ hdpos]
        linarith
      have hqu : (b' - r') / diff ≤ 1 := by
        rw [div_le_one hdpos, hdiff]
        linarith
      constructor <;> nlinarith
    · have hdpos : 0 < diff := lt_of_le_of_ne hdiff0 (Ne.symm hz)
      have hql : -1 ≤ (r' - g') / diff := by
        rw [le_div_iff₀ hdpos]
        linarith
      have hqu : (r' - g') / diff ≤ 1 := by
        rw [div_le_one hdpos, hdiff]
        linarith
      constructor <;> nlinarith
  have hsb : 0 ≤ s ∧ s ≤ 1 := by
    rw [hs]
    split_ifs with hz
    · norm_num
    · have hMpos : 0 < M := lt_of_le_of_ne hM0 (Ne.symm hz)
      exact ⟨div_nonneg hdiff0 hM0, by rw [div_le_one hMpos]; exact hdiffM⟩
  refine ⟨hhb.1, hhb.2, hsb.1, hsb.2, hM0, hM1, ?_⟩
  intro hMm
  have hdz : diff = 0 := by rw [hdiff, hMm, sub_self]
  constructor
  · rw [hh, if_pos hdz]
  · rw [hs]
    split_ifs with hz
    · rfl
    · rw [hdz, zero_div]

/-- Claim C9.  The RGB to HSV conversion is total on byte triples and
always yields hue in [0, 360), saturation in [0, 1] and value in [0, 1];
on every achromatic input (the maximal channel equals the minimal one,
black included) it yields hue 0 and saturation 0. -/
theorem c9_rgb_to_hsv_total (r g b : ℕ) (hr : r ≤ 255) (hg : g ≤ 255) (hb : b ≤ 255) :
    (0 ≤ (rgbToHsv r g b).h ∧ (rgbToHsv r g b).h < 360) ∧
    (0 ≤ (rgbToHsv r g b).s ∧ (rgbToHsv r g b).s ≤ 1) ∧
    (0 ≤ (rgbToHsv r g b).v ∧ (rgbToHsv r g b).v ≤ 1) ∧
    (max r (max g b) = min r (min g b) →
      (rgbToHsv r g b).h = 0 ∧ (rgbToHsv r g b).s = 0) := by
  have core := hsv_bounds_core ((r : ℚ)/255) ((g : ℚ)/255) ((b : ℚ)/255)
    ((rgbToHsv r g b).v)
    (min ((r : ℚ)/255) (min ((g : ℚ)/255) ((b : ℚ)/255)))
    ((rgbToHsv r g b).v - min ((r : ℚ)/255) (min ((g : ℚ)/255) ((b : ℚ)/255)))
    ((rgbToHsv r g b).s) ((rgbToHsv r g b).h)
    rfl rfl rfl rfl rfl
    (by positivity) (by rw [div_le_one (by norm_num)]; exact_mod_cast hr)
    (by positivity) (by rw [div_le_one (by norm_num)]; exact_mod_cast hg)
    (by positivity) (by rw [div_le_one (by norm_num)]; exact_mod_cast hb)
  obtain ⟨hh0, hh1, hs0, hs1, hv0, hv1, hach⟩ := core
  refine ⟨⟨hh0, hh1⟩, ⟨hs0, hs1⟩, ⟨hv0, hv1⟩, ?_⟩
  intro hachro
  have heq : r = g ∧ g = b := by omega
  obtain ⟨h1, h2⟩ := heq
  subst h1
  subst h2
  apply hach
  show max ((r : ℚ)/255) (max ((r : ℚ)/255) ((r : ℚ)/255)) = _
  simp [max_self, min_self]

/-- Witness for c9_rgb_to_hsv_total at the byte triple (10, 200, 30). -/
theorem c9_witness :
    (0 ≤ (rgbToHsv 10 200 30).h ∧ (rgbToHsv 10 200 30).h < 360) ∧
    (0 ≤ (rgbToHsv 10 200 30).s ∧ (rgbToHsv 10 200 30).s ≤ 1) ∧
    (0 ≤ (rgbToHsv 10 200 30).v ∧ (rgbToHsv 10 200 30).v ≤ 1) ∧
    (max 10 (max 200 30) = min 10 (min 200 30) →
      (rgbToHsv 10 200 30).h = 0 ∧ (rgbToHsv 10 200 30).s = 0) :=
  c9_rgb_to_hsv_total 10 200 30 (by norm_num) (by norm_num) (by norm_num)

/-- A pixel strictly inside the tolerance ball is made fully
transparent by the sprites chroma key, for any fade. -/
lemma spritesAlpha_near (p : Pixel) (kr kg kb : ℕ) (tol fade : ℝ) (h0 : 0 < tol)
    (h : ((exactDistSq p kr kg kb : ℤ) : ℝ) < tol ^ 2) :
    spritesAlpha p kr kg kb tol fade = 0 := by
  have hlt : spritesDist p kr kg kb < tol := by
    unfold spritesDist
    rw [Real.sqrt_lt' h0]
    exact h
  unfold spritesAlpha spritesAlphaReal
  rw [if_pos hlt]
  exact Int.floor_zero

/-- With fade 0, a pixel strictly outside the tolerance ball keeps the
default alpha 255 under the sprites chroma key. -/
lemma spritesAlpha_far (p : Pixel) (kr kg kb : ℕ) (tol : ℝ) (h0 : 0 ≤ tol)
    (h : tol ^ 2 < ((exactDistSq p kr kg kb : ℤ) : ℝ)) :
    spritesAlpha p kr kg kb tol 0 = 255 := by
  have hgt : tol < spritesDist p kr kg kb := by
    unfold spritesDist
    rw [Real.lt_sqrt h0]
    exact h
  unfold spritesAlpha spritesAlphaReal
  rw [if_neg (not_lt.mpr hgt.le), if_neg (by rintro ⟨hf, -, -⟩; exact lt_irrefl (0:ℝ) hf)]
  norm_num

/-- The exact distance of the pixel (50, 255, 0) from the key
(0, 255, 0) is 50. -/
lemma spritesDist_2500 : spritesDist ⟨50, 255, 0, 255⟩ 0 255 0 = 50 := by
  have h : exactDistSq ⟨50, 255, 0, 255⟩ 0 255 0 = 2500 := by decide
  unfold spritesDist
  rw [h, show ((2500:ℤ):ℝ) = ((2500:ℕ):ℝ) by norm_num, sqrt_of_sq 2500 50 (by norm_num)]
  norm_num

/-- Claim C2.  The finalize chroma key ignores the source alpha channel:
the already transparent pixel (200, 255, 200, alpha 0) is at wrapped
distance sqrt 128 from the green key, which exceeds tolerance 10, so the
pixel is written back with alpha 255 instead of staying transparent. -/
theorem c2_counterexample :
    (Pixel.mk 200 255 200 0).a = 0 ∧ finalizeAlpha ⟨200, 255, 200, 0⟩ 0 255 0 10 = 255 := by
  refine ⟨rfl, ?_⟩
  have h : finalizeDistSq ⟨200, 255, 200, 0⟩ 0 255 0 = 128 := by decide
  have hlt : (10:ℝ) < finalizeDist ⟨200, 255, 200, 0⟩ 0 255 0 := by
    unfold finalizeDist
    rw [h, Real.lt_sqrt (by norm_num : (0:ℝ) ≤ 10)]
    norm_num
  unfold finalizeAlpha
  rw [if_pos hlt]

/-- Claim C2, amended.  The cleanup compositor does short-circuit source
alpha 0 to output 0 for every classification and confidence; the finalize
chroma key instead recomputes alpha from the wrapped chroma distance
alone, which happens to be 0 for every pixel whenever the tolerance is at
least 16 (so at the script's tolerances 40 and 30 already-transparent
pixels do stay transparent), but not for smaller tolerances. -/
theorem c2_amended :
    (∀ (sr : Bool) (c : ℚ), composite 0 sr c = 0) ∧
    (∀ (p : Pixel) (kr kg kb : ℕ) (tol : ℝ), 16 ≤ tol → finalizeAlpha p kr kg kb tol = 0) := by
  constructor
  · intro sr c
    unfold composite
    rw [if_pos rfl]
  · intro p kr kg kb tol h
    exact finalizeAlpha_eq_zero p kr kg kb tol h

/-- Witness for c2_amended: a removed pixel of confidence 3/4 with source
alpha 0, and an arbitrary pixel under the finalize chroma key at the
script's default tolerance 40. -/
theorem c2_witness :
    composite 0 true (3/4) = 0 ∧ finalizeAlpha ⟨7, 7, 7, 0⟩ 0 255 0 40 = 0 :=
  ⟨c2_amended.1 true (3/4), c2_amended.2 ⟨7, 7, 7, 0⟩ 0 255 0 40 (by norm_num)⟩

/-- Claim C3.  Against the finalize implementation the claim fails: the
pixel (41, 255, 0) has true squared distance 1681 from the green key,
above the tolerance 40, yet the finalize chroma key computes the wrapped
distance sqrt 145 and classifies it fully background (alpha 0), not
foreground. -/
theorem c3_counterexample :
    exactDistSq ⟨41, 255, 0, 255⟩ 0 255 0 = 1681 ∧ (1600 : ℤ) < 1681 ∧
    finalizeAlpha ⟨41, 255, 0, 255⟩ 0 255 0 40 = 0 :=
  ⟨by decide, by norm_num, finalizeAlpha_eq_zero ⟨41, 255, 0, 255⟩ 0 255 0 40 (by norm_num)⟩

/-- Claim C3, amended.  The int32 chroma key of
scripts/process_sprites.py behaves exactly as claimed: with tolerance 40
and fade 0 a pixel at distance strictly below 40 becomes fully
transparent (confidence 1) and a pixel at distance strictly above 40
stays opaque (confidence 0); with positive fade, a pixel in the fade
band gets alpha (1 - confidence) * 255 for the linear ramp confidence
1 - (dist - tolerance) / fade.  The uint8 chroma key of
scripts/finalize_assets.py does not: its wrapped distance is below 16,
so at tolerance 40 every pixel, whatever its true distance, is
classified background. -/
theorem c3_amended :
    (∀ (p : Pixel) (kr kg kb : ℕ), exactDistSq p kr kg kb < 1600 →
      spritesAlpha p kr kg kb 40 0 = 0) ∧
    (∀ (p : Pixel) (kr kg kb : ℕ), 1600 < exactDistSq p kr kg kb →
      spritesAlpha p kr kg kb 40 0 = 255) ∧
    (∀ (p : Pixel) (kr kg kb : ℕ) (tol fade : ℝ), 0 < fade →
      tol ≤ spritesDist p kr kg kb → spritesDist p kr kg kb < tol + fade →
      spritesAlphaReal p kr kg kb tol fade =
        (1 - (1 - (spritesDist p kr kg kb - tol) / fade)) * 255) ∧
    (∀ (p : Pixel) (kr kg kb : ℕ) (tol : ℝ), 16 ≤ tol →
      finalizeAlpha p kr kg kb tol = 0) := by
  refine ⟨?_, ?_, ?_, ?_⟩
  · intro p kr kg kb h
    apply spritesAlpha_near p kr kg kb 40 0 (by norm_num)
    rw [show ((40:ℝ) ^ 2) = 1600 by norm_num]
    exact_mod_cast h
  · intro p kr kg kb h
    apply spritesAlpha_far p kr kg kb 40 (by norm_num)
    rw [show ((40:ℝ) ^ 2) = 1600 by norm_num]
    exact_mod_cast h
  · intro p kr kg kb tol fade hf htol hlt
    unfold spritesAlphaReal
    rw [if_neg (not_lt.mpr htol), if_pos ⟨hf, htol, hlt⟩]
    ring
  · intro p kr kg kb tol h
    exact finalizeAlpha_eq_zero p kr kg kb tol h

/-- Witness for c3_amended: the pixels (39, 255, 0) and (41, 255, 0)
around the tolerance boundary, the pixel (50, 255, 0) inside the fade
band 40..55, and an arbitrary pixel under the finalize key. -/
theorem c3_witness :
    spritesAlpha ⟨39, 255, 0, 255⟩ 0 255 0 40 0 = 0 ∧
    spritesAlpha ⟨41, 255, 0, 255⟩ 0 255 0 40 0 = 255 ∧
    spritesAlphaReal ⟨50, 255, 0, 255⟩ 0 255 0 40 15 =
      (1 - (1 - (spritesDist ⟨50, 255, 0, 255⟩ 0 255 0 - 40) / 15)) * 255 ∧
    finalizeAlpha ⟨1, 2, 3, 4⟩ 0 255 0 40 = 0 :=
  ⟨c3_amended.1 ⟨39, 255, 0, 255⟩ 0 255 0 (by decide),
   c3_amended.2.1 ⟨41, 255, 0, 255⟩ 0 255 0 (by decide),
   c3_amended.2.2.1 ⟨50, 255, 0, 255⟩ 0 255 0 40 15 (by norm_num)
     (by rw [spritesDist_2500]; norm_num) (by rw [spritesDist_2500]; norm_num),
   c3_amended.2.2.2 ⟨1, 2, 3, 4⟩ 0 255 0 40 (by norm_num)⟩

/-- Claim C10.  In the finalize chroma key the black pixel has true
squared distance 65025 (distance 255) from the pure green key, but the
uint8 difference 0 - 255 wraps to 1, so the computed squared distance is
1; at tolerance 40 the decision taken on the wrapped value classifies the
pixel background (alpha 0), while the exact int32 implementation of the
sprites script classifies the same pixel foreground (alpha 255). -/
theorem c10_uint8_wraparound :
    u8sub 0 255 = 1 ∧
    exactDistSq ⟨0, 0, 0, 255⟩ 0 255 0 = 65025 ∧
    finalizeDistSq ⟨0, 0, 0, 255⟩ 0 255 0 = 1 ∧
    finalizeAlpha ⟨0, 0, 0, 255⟩ 0 255 0 40 = 0 ∧
    spritesAlpha ⟨0, 0, 0, 255⟩ 0 255 0 40 0 = 255 := by
  refine ⟨by decide, by decide, by decide,
    finalizeAlpha_eq_zero ⟨0, 0, 0, 255⟩ 0 255 0 40 (by norm_num), ?_⟩
  apply spritesAlpha_far ⟨0, 0, 0, 255⟩ 0 255 0 40 (by norm_num)
  rw [show exactDistSq ⟨0, 0, 0, 255⟩ 0 255 0 = 65025 by decide]
  norm_num

/-- Claim C5.  The slicer of process_sprite_sheet does not validate
divisibility: on the 100 by 96 image with a 3 by 3 grid, where the spec's
slicer contract reports ShapeMismatch, the code still produces 9 frames,
each truncated to width 100 // 3 = 33, silently dropping the last column
of pixels. -/
theorem c5_counterexample :
    specSlice demo100 3 3 = .error .shapeMismatch ∧
    (sliceGrid demo100 3 3).length = 9 ∧
    (sliceGrid demo100 3 3).map Image.width = List.replicate 9 33 := by
  refine ⟨rfl, ?_, rfl⟩
  rfl

/-- Claim C5, amended.  Slicing never fails: for every image and every
positive grid it returns rows * cols frames whose sizes are the integer
divisions width // cols and height // rows, so a non-dividing grid is
silently truncated rather than rejected. -/
theorem c5_amended (img : Image) (rows cols : ℕ) (hr : 0 < rows) (hc : 0 < cols) :
    (sliceGrid img rows cols).length = rows * cols ∧
    ∀ fr ∈ sliceGrid img rows cols,
      fr.width = img.width / cols ∧ fr.height = img.height / rows := by
  constructor
  · unfold sliceGrid
    exact gridFlat_length _ _ _
  · intro fr hfr
    unfold sliceGrid at hfr
    simp only [List.mem_flatMap, List.mem_map, List.mem_range] at hfr
    obtain ⟨r, hr', c, hc', rfl⟩ := hfr
    constructor
    · show c * (img.width / cols) + img.width / cols - c * (img.width / cols) =
        img.width / cols
      exact Nat.add_sub_cancel_left _ _
    · show r * (img.height / rows) + img.height / rows - r * (img.height / rows) =
        img.height / rows
      exact Nat.add_sub_cancel_left _ _

/-- Witness for c5_amended on the 100 by 96 demonstration image with a
3 by 3 grid. -/
theorem c5_witness :
    (sliceGrid demo100 3 3).length = 3 * 3 ∧
    ∀ fr ∈ sliceGrid demo100 3 3,
      fr.width = demo100.width / 3 ∧ fr.height = demo100.height / 3 :=
  c5_amended demo100 3 3 (by norm_num) (by norm_num)

/-- Claim C6.  When the grid divides the image evenly, slicing yields
exactly rows * cols frames; the frame at list position r * cols + c is
the crop of grid cell (r, c) — row-major order — has the exact cell size
(width / cols, height / rows), and its pixel (x, y) is the source pixel
at (c * cellWidth + x, r * cellHeight + y); the source image is read,
never written. -/
theorem c6_slice_row_major (img : Image) (rows cols : ℕ) (h1 : 0 < rows) (h2 : 0 < cols)
    (hw : cols ∣ img.width) (hh : rows ∣ img.height) :
    (sliceGrid img rows cols).length = rows * cols ∧
    ∀ r c, r < rows → c < cols →
      ∃ fr, (sliceGrid img rows cols)[r * cols + c]? = some fr ∧
        fr.width = img.width / cols ∧ fr.height = img.height / rows ∧
        ∀ x y : ℕ, fr.pix x y =
          img.pix (c * (img.width / cols) + x) (r * (img.height / rows) + y) := by
  constructor
  · unfold sliceGrid
    exact gridFlat_length _ _ _
  · intro r c hr hc
    refine ⟨crop img (c * (img.width / cols)) (r * (img.height / rows))
        (c * (img.width / cols) + img.width / cols)
        (r * (img.height / rows) + img.height / rows), ?_, ?_, ?_, ?_⟩
    · unfold sliceGrid
      exact gridFlat_getElem cols _ rows r c hr hc
    · show c * (img.width / cols) + img.width / cols - c * (img.width / cols) =
        img.width / cols
      exact Nat.add_sub_cancel_left _ _
    · show r * (img.height / rows) + img.height / rows - r * (img.height / rows) =
        img.height / rows
      exact Nat.add_sub_cancel_left _ _
    · intro x y
      rfl

/-- Witness for c6_slice_row_major on the 192 by 96 demonstration image
with a 3 by 3 grid: 9 frames of 64 by 32. -/
theorem c6_witness :
    (sliceGrid demo192 3 3).length = 3 * 3 ∧
    ∀ r c, r < 3 → c < 3 →
      ∃ fr, (sliceGrid demo192 3 3)[r * 3 + c]? = some fr ∧
        fr.width = demo192.width / 3 ∧ fr.height = demo192.height / 3 ∧
        ∀ x y : ℕ, fr.pix x y =
          demo192.pix (c * (demo192.width / 3) + x) (r * (demo192.height / 3) + y) :=
  c6_slice_row_major demo192 3 3 (by norm_num) (by norm_num) ⟨64, rfl⟩ ⟨32, rfl⟩

/-- Claim C7.  In scripts/generate_ui_assets.py the external
segmentation call is not wrapped in a try block: with rembg available and
a failing hook, remove_background propagates the error to the caller
instead of returning the chroma-key fallback. -/
theorem c7_counterexample :
    uiRemoveBackground true failingHook demoImg = .error .unavailable ∧
    uiRemoveBackground true failingHook demoImg ≠ .ok (uiChromaImage demoImg) :=
  ⟨rfl, fun h => Except.noConfusion h⟩

/-- Claim C7, amended.  The isometric script behaves as claimed: a
failing external hook is caught and the chroma-key result returned, a
successful hook result is returned as is, and without rembg the chroma
key runs directly.  The UI script falls back only when rembg is
unavailable; with rembg present a hook failure propagates as the
pipeline's own error. -/
theorem c7_amended :
    (∀ (hook : Image → Except SegError Image) (img : Image) (e : SegError),
      hook img = .error e → isoRemoveBackground true hook img = isoChroma img 180 120) ∧
    (∀ (hook : Image → Except SegError Image) (img res : Image),
      hook img = .ok res → isoRemoveBackground true hook img = res) ∧
    (∀ (hook : Image → Except SegError Image) (img : Image),
      isoRemoveBackground false hook img = isoChroma img 180 120) ∧
    (∀ (hook : Image → Except SegError Image) (img : Image) (e : SegError),
      hook img = .error e → uiRemoveBackground true hook img = .error e) ∧
    (∀ (hook : Image → Except SegError Image) (img : Image),
      uiRemoveBackground false hook img = .ok (uiChromaImage img)) := by
  refine ⟨?_, ?_, ?_, ?_, ?_⟩
  · intro hook img e h
    simp [isoRemoveBackground, h]
  · intro hook img res h
    simp [isoRemoveBackground, h]
  · intro hook img
    simp [isoRemoveBackground]
  · intro hook img e h
    simp [uiRemoveBackground, h]
  · intro hook img
    simp [uiRemoveBackground]

/-- Witness for c7_amended with the always-failing hook on the
demonstration image. -/
theorem c7_witness :
    isoRemoveBackground true failingHook demoImg = isoChroma demoImg 180 120 ∧
    uiRemoveBackground true failingHook demoImg = .error .unavailable ∧
    uiRemoveBackground false failingHook demoImg = .ok (uiChromaImage demoImg) :=
  ⟨c7_amended.1 failingHook demoImg .unavailable rfl,
   c7_amended.2.2.2.1 failingHook demoImg .unavailable rfl,
   c7_amended.2.2.2.2 failingHook demoImg⟩

end Theorems

end AgentForge
